import Mathlib

/-!
Verification of `pkg/minikube/assets/vm_assets.go`: a shallow embedding of the
asset abstraction (disk-backed and memory-backed byte sources with filesystem
metadata) and of the local copy operation `CopyFileLocal`, together with
theorems settling the specification's claims about them.

Modelling conventions:
* File contents and byte streams are `String`s (byte-for-byte).
* The local filesystem plus the environment's fault behaviour is a `World`:
  an association list of files, a set of directories, and boolean fault
  oracles that say which primitive `os` calls fail (covering failures such as
  permission denial that are not determined by the file map alone).
* Each Go `os` primitive becomes a function on `World`; fallible ones return
  `Option`.
* `CopyFileLocal` additionally returns a trace of the mutating filesystem
  effects it performed, in order, so that claims about which effects happen
  (and in which order) are statable.
-/

namespace VMAssets

/-- A file on the local filesystem: its content bytes and its POSIX mode
(the mode bits as they sit on disk). -/
structure GoFile where
  content : String
  mode : Nat
deriving DecidableEq

/-- The local filesystem together with fault oracles for the `os` primitives.
A fault oracle returning `true` means that call fails for an environmental
reason (e.g. permission denied) beyond what the file map determines. -/
structure World where
  files : List (String × GoFile)
  dirs : List String
  openFail : String → Bool
  fstatFail : String → Bool
  mkdirFail : String → Bool
  statFail : String → Bool
  removeFail : String → Bool
  createFail : String → Bool
  chmodFail : String → Bool
  copyFail : Bool
  closeFail : Bool

/-- Look a path up in the file map. -/
def lookupFile : List (String × GoFile) → String → Option GoFile
  | [], _ => none
  | (q, g) :: rest, p => if q = p then some g else lookupFile rest p

/-- Replace the entry at `p` (or append it) in the file map. -/
def updateFile : List (String × GoFile) → String → GoFile → List (String × GoFile)
  | [], p, g => [(p, g)]
  | (q, h) :: rest, p, g =>
    if q = p then (p, g) :: rest else (q, h) :: updateFile rest p g

/-- Delete the entry at `p` from the file map. -/
def eraseFile : List (String × GoFile) → String → List (String × GoFile)
  | [], _ => []
  | (q, h) :: rest, p => if q = p then eraseFile rest p else (q, h) :: eraseFile rest p

/-- Set the mode of the file at `p`. -/
def chmodFile : List (String × GoFile) → String → Nat → List (String × GoFile)
  | [], _, _ => []
  | (q, h) :: rest, p, m =>
    if q = p then (q, { h with mode := m }) :: chmodFile rest p m
    else (q, h) :: chmodFile rest p m

/-- Append `s` to the content of the file at `p` (a write at the current end
of a freshly created, hence empty, file). -/
def writeFile : List (String × GoFile) → String → String → List (String × GoFile)
  | [], _, _ => []
  | (q, h) :: rest, p, s =>
    if q = p then (q, { h with content := h.content ++ s }) :: writeFile rest p s
    else (q, h) :: writeFile rest p s

/-- `os.MkdirAll(dir, os.ModePerm)`: recursively ensures `dir` exists.
Succeeds unless the fault oracle fires. -/
def osMkdirAll (dir : String) (w : World) : Option World :=
  if w.mkdirFail dir then none else some { w with dirs := dir :: w.dirs }

/-- The success test of `os.Stat(p)` as used by `CopyFileLocal` (only
`err == nil` is inspected): the path must exist and the stat must not fail
for an environmental reason. -/
def osStatOk (p : String) (w : World) : Bool :=
  (lookupFile w.files p).isSome && !(w.statFail p)

/-- `os.Remove(p)`: deletes the file at `p` unless the fault oracle fires. -/
def osRemove (p : String) (w : World) : Option World :=
  if w.removeFail p then none else some { w with files := eraseFile w.files p }

/-- `os.Create(p)`: truncates an existing file (keeping its mode) or creates a
new one with mode `0666` (umask not modelled). -/
def osCreate (p : String) (w : World) : Option World :=
  if w.createFail p then none
  else
    let mode := match lookupFile w.files p with
      | some g => g.mode
      | none => 438
    some { w with files := updateFile w.files p ⟨"", mode⟩ }

/-- An `io.Reader`: the bytes it has yet to yield. A file handle opened by
`os.Open` starts positioned at the full content. -/
structure GoReader where
  remaining : String
deriving DecidableEq

/-- `Read` on a reader with an `n`-byte buffer: yields up to `n` bytes and the
advanced reader. (Go's `(0, io.EOF)` at end-of-stream is the empty chunk.) -/
def GoReader.read (r : GoReader) (n : Nat) : String × GoReader :=
  (r.remaining.take n, ⟨r.remaining.drop n⟩)

/-- `os.Open(p)` for reading: yields a reader over the file's content, failing
if the path is absent or the fault oracle fires. -/
def osOpen (p : String) (w : World) : Option GoReader :=
  if w.openFail p then none
  else match lookupFile w.files p with
    | none => none
    | some g => some ⟨g.content⟩

/-- Result of Go's `strconv.Atoi` beyond the value: `invalid` models
`ErrSyntax`, `outOfRange` models `ErrRange`. -/
inductive NumErr where
  | invalid
  | outOfRange
deriving DecidableEq

/-- Decimal digit test, as in `strconv`. -/
def isDigit (c : Char) : Bool := '0' ≤ c && c ≤ '9'

/-- Value of a list of decimal digits. -/
def digitsVal (l : List Char) : Nat :=
  l.foldl (fun n c => n * 10 + (c.toNat - '0'.toNat)) 0

/-- Strip the optional leading sign, as `strconv` does: returns whether the
number is negated and the remaining characters. -/
def atoiSign : List Char → Bool × List Char
  | '-' :: rest => (true, rest)
  | '+' :: rest => (false, rest)
  | cs => (false, cs)

/-- The digits phase of `strconv.Atoi`: the remaining characters must be a
nonempty run of decimal digits (else `(0, ErrSyntax)`); values outside the
`int64` range yield the clamped extreme with `ErrRange`. -/
def atoiDigits (neg : Bool) (ds : List Char) : Int × Option NumErr :=
  if ds.isEmpty || !(ds.all isDigit) then (0, some .invalid)
  else
    let v : Int := if neg then -(digitsVal ds : Int) else (digitsVal ds : Int)
    if v > (9223372036854775807 : Int) then ((9223372036854775807 : Int), some .outOfRange)
    else if v < (-9223372036854775808 : Int) then ((-9223372036854775808 : Int), some .outOfRange)
    else (v, none)

/-- Go's `strconv.Atoi` on a 64-bit platform: an optional sign followed by
decimal digits. -/
def goAtoi (s : String) : Int × Option NumErr :=
  atoiDigits (atoiSign s.toList).1 (atoiSign s.toList).2

/-- Go `fmt`'s rendering of an `int` under the `%s` verb (a wrong-verb
application): `%!s(int=<decimal>)`. This is what
`errors.Wrapf(err, "error converting permissions %s to integer", perms)`
interpolates, `perms` being the `int` result of `Atoi`. -/
def goFmtS (i : Int) : String := "%!s(int=" ++ toString i ++ ")"

/-- `os.FileMode(i)`: conversion of a Go `int` to the `uint32`-backed
`os.FileMode`. -/
def fileModeOfInt (i : Int) : Nat := (i % (4294967296 : Int)).toNat

/-- The Unix mode `os.(*File).Chmod` actually applies for a given `FileMode`
(`syscallMode`): the low 9 permission bits, plus setuid/setgid/sticky
translated from `ModeSetuid = 1<<23`, `ModeSetgid = 1<<22`,
`ModeSticky = 1<<20`. -/
def goSyscallMode (m : Nat) : Nat :=
  (m &&& 511) |||
    (if m &&& (1 <<< 23) ≠ 0 then 2048 else 0) |||
    (if m &&& (1 <<< 22) ≠ 0 then 1024 else 0) |||
    (if m &&& (1 <<< 20) ≠ 0 then 512 else 0)

/-- `filepath.Join(dir, name)` for the already-clean paths this component
uses (path cleaning is not modelled). -/
def filepathJoin (dir name : String) : String := dir ++ "/" ++ name

/-- The shared field record embedded by both asset variants: a raw byte
buffer, an optional open reader handle (`nil` when never populated), the
declared length, and the four metadata strings. -/
structure BaseAsset where
  data : String
  reader : Option GoReader
  Length : Int
  AssetName : String
  TargetDir : String
  TargetName : String
  Permissions : String
deriving DecidableEq

/-- `(*BaseAsset).GetAssetName`. -/
def BaseAsset.GetAssetName (b : BaseAsset) : String := b.AssetName

/-- `(*BaseAsset).GetTargetDir`. -/
def BaseAsset.GetTargetDir (b : BaseAsset) : String := b.TargetDir

/-- `(*BaseAsset).GetTargetName`. -/
def BaseAsset.GetTargetName (b : BaseAsset) : String := b.TargetName

/-- `(*BaseAsset).GetPermissions`. -/
def BaseAsset.GetPermissions (b : BaseAsset) : String := b.Permissions

/-- The disk-backed asset variant: wraps the base record. -/
structure FileAsset where
  base : BaseAsset
deriving DecidableEq

/-- The construction error of `NewFileAsset`:
`errors.Wrapf(err, "Error opening file asset: %s", f.AssetName)`. -/
inductive AssetErr where
  | openingFileAsset (name : String)
deriving DecidableEq

/-- `NewFileAsset(assetName, targetDir, targetName, permissions)`: builds the
record, immediately opens `assetName` for reading, fails with the wrapped
open error, and on success stores the open handle in `reader`. -/
def NewFileAsset (assetName targetDir targetName permissions : String)
    (w : World) : Except AssetErr FileAsset :=
  let f : FileAsset :=
    ⟨{ data := "", reader := none, Length := 0, AssetName := assetName,
       TargetDir := targetDir, TargetName := targetName,
       Permissions := permissions }⟩
  match osOpen f.base.AssetName w with
  | none => .error (.openingFileAsset f.base.AssetName)
  | some file => .ok ⟨{ f.base with reader := some file }⟩

/-- `(*FileAsset).GetLength`: re-opens the asset's path, stats the fresh
handle, and returns its size; returns `0` if the open or the stat fails. The
fresh handle is closed again (no lasting world change), and the asset's own
`reader` is not touched; the unchanged asset and world are returned alongside
the length to make that explicit. -/
def FileAsset.GetLength (f : FileAsset) (w : World) : Int × FileAsset × World :=
  match osOpen f.base.AssetName w with
  | none => (0, f, w)
  | some file =>
    if w.fstatFail f.base.AssetName then (0, f, w)
    else ((file.remaining.length : Int), f, w)

/-- The error `FileAsset.Read` returns when the reader handle was never set:
"Error attempting FileAsset.Read, FileAsset.reader uninitialized". -/
inductive ReadErr where
  | readerUninitialized
deriving DecidableEq

/-- `(*FileAsset).Read(p)` with an `n`-byte buffer: a guarded delegation to
the stored reader, returning the uninitialized-reader error when `reader` is
`nil`. -/
def FileAsset.Read (f : FileAsset) (n : Nat) :
    Except ReadErr (String × FileAsset) :=
  match f.base.reader with
  | none => .error .readerUninitialized
  | some r =>
    let out := r.read n
    .ok (out.1, ⟨{ f.base with reader := some out.2 }⟩)

/-- The memory-backed asset variant: wraps the base record. -/
structure MemoryAsset where
  base : BaseAsset
deriving DecidableEq

/-- `(*MemoryAsset).GetLength`: returns the stored `Length` field. -/
def MemoryAsset.GetLength (m : MemoryAsset) : Int := m.base.Length

/-- `(*MemoryAsset).Read(p)` with an `n`-byte buffer: an unguarded
`m.reader.Read(p)`. A `nil` reader is dereferenced, which in Go panics;
the panic is modelled as `none`. -/
def MemoryAsset.Read (m : MemoryAsset) (n : Nat) :
    Option (String × MemoryAsset) :=
  match m.base.reader with
  | none => none
  | some r =>
    let out := r.read n
    some (out.1, ⟨{ m.base with reader := some out.2 }⟩)

/-- A value satisfying the `CopyableFile` interface, as `CopyFileLocal`
consumes it: the four metadata getters, the declared length, and — standing
for the polymorphic `io.Reader` side — the byte stream its `Read` yields to
`io.Copy`. -/
structure CopyableFile where
  stream : String
  length : Int
  assetName : String
  targetDir : String
  targetName : String
  permissions : String
deriving DecidableEq

/-- The errors `CopyFileLocal` can return, one constructor per wrapped
failure, each carrying exactly the values its `errors.Wrapf` format string
interpolates. -/
inductive CopyErr where
  | makingDirs (dir : String)
  | removingFile (path : String)
  | creatingFile (path : String)
  | convertingPermissions (shown : String)
  | changingPermissions (path : String)
  | copying (path : String)
  | closing
deriving DecidableEq

/-- The context message of each `CopyErr`, as built by `errors.Wrapf` (the
wrapped cause follows after ": " and is not repeated here). -/
def CopyErr.contextMessage : CopyErr → String
  | .makingDirs dir => "error making dirs for " ++ dir
  | .removingFile path => "error removing file " ++ path
  | .creatingFile path => "error creating file at " ++ path
  | .convertingPermissions shown =>
      "error converting permissions " ++ shown ++ " to integer"
  | .changingPermissions path => "error changing file permissions for " ++ path
  | .copying path => "error copying file " ++ path ++ " to target location"
  | .closing => "close failed"

/-- The mutating filesystem effects `CopyFileLocal` performs, recorded in
order. -/
inductive FSEffect where
  | mkdirAll (dir : String)
  | remove (path : String)
  | create (path : String)
  | chmod (path : String) (mode : Nat)
  | write (path : String) (bytes : String)
  | close (path : String)
deriving DecidableEq

/-- `CopyFileLocal` from `os.Create` onward: create the destination, parse
the permissions with `strconv.Atoi`, chmod the new file to
`os.FileMode(perms)`, stream the asset's bytes into it with `io.Copy`, and
return the result of `Close`. -/
def copyFromCreate (f : CopyableFile) (targetPath : String) (w : World)
    (tr : List FSEffect) : Option CopyErr × World × List FSEffect :=
  match osCreate targetPath w with
  | none => (some (.creatingFile targetPath), w, tr)
  | some w2 =>
    let tr2 := tr ++ [FSEffect.create targetPath]
    match goAtoi f.permissions with
    | (v, some _) => (some (.convertingPermissions (goFmtS v)), w2, tr2)
    | (v, none) =>
      if w2.chmodFail targetPath then
        (some (.changingPermissions targetPath), w2, tr2)
      else
        let m := goSyscallMode (fileModeOfInt v)
        let w3 := { w2 with files := chmodFile w2.files targetPath m }
        let tr3 := tr2 ++ [FSEffect.chmod targetPath m]
        if w3.copyFail then (some (.copying targetPath), w3, tr3)
        else
          let w4 := { w3 with files := writeFile w3.files targetPath f.stream }
          let tr4 := tr3 ++ [FSEffect.write targetPath f.stream]
          if w4.closeFail then (some .closing, w4, tr4 ++ [FSEffect.close targetPath])
          else (none, w4, tr4 ++ [FSEffect.close targetPath])

/-- `CopyFileLocal` from the existence check onward: remove a pre-existing
destination file only when `os.Stat` succeeds, then continue with creation. -/
def copyFromStat (f : CopyableFile) (targetPath : String) (w : World)
    (tr : List FSEffect) : Option CopyErr × World × List FSEffect :=
  if osStatOk targetPath w then
    match osRemove targetPath w with
    | none => (some (.removingFile targetPath), w, tr)
    | some w2 => copyFromCreate f targetPath w2 (tr ++ [FSEffect.remove targetPath])
  else copyFromCreate f targetPath w tr

/-- `CopyFileLocal(f)`: ensure the target directory exists, compute the
destination path with `filepath.Join`, then run the stat/remove/create/
chmod/copy/close sequence. Returns the Go error (`none` on success), the
final world, and the effect trace. -/
def CopyFileLocal (f : CopyableFile) (w : World) :
    Option CopyErr × World × List FSEffect :=
  match osMkdirAll f.targetDir w with
  | none => (some (.makingDirs f.targetDir), w, [])
  | some w1 =>
    copyFromStat f (filepathJoin f.targetDir f.targetName) w1
      [FSEffect.mkdirAll f.targetDir]

/-! Concrete objects shared by the scenario theorems and witnesses. -/

/-- A fault oracle under which every primitive succeeds. -/
def noFaults : String → Bool := fun _ => false

/-- An empty, fault-free filesystem. -/
def cleanWorld : World :=
  { files := [], dirs := [], openFail := noFaults, fstatFail := noFaults,
    mkdirFail := noFaults, statFail := noFaults, removeFail := noFaults,
    createFail := noFaults, chmodFail := noFaults, copyFail := false,
    closeFail := false }

/-- The spec's scenario asset: content "key: value" (10 bytes), destined for
`/tmp/out/config.yaml` with permission string "0644". -/
def demoAsset : CopyableFile :=
  { stream := "key: value", length := 10, assetName := "config.yaml",
    targetDir := "/tmp/out", targetName := "config.yaml",
    permissions := "0644" }

/-! Lookup lemmas for the file-map operations. -/

/-- After `updateFile`, looking up the written path yields the written file. -/
theorem lookupFile_updateFile (fs : List (String × GoFile)) (p : String)
    (g : GoFile) : lookupFile (updateFile fs p g) p = some g := by
  induction fs with
  | nil => simp [updateFile, lookupFile]
  | cons e rest ih =>
    obtain ⟨q, h0⟩ := e
    by_cases hq : q = p
    · simp [updateFile, lookupFile, hq]
    · simp [updateFile, lookupFile, hq, ih]

/-- After `eraseFile`, the erased path is absent. -/
theorem lookupFile_eraseFile (fs : List (String × GoFile)) (p : String) :
    lookupFile (eraseFile fs p) p = none := by
  induction fs with
  | nil => simp [eraseFile, lookupFile]
  | cons e rest ih =>
    obtain ⟨q, h0⟩ := e
    by_cases hq : q = p
    · simp [eraseFile, lookupFile, hq, ih]
    · simp [eraseFile, lookupFile, hq, ih]

/-- `chmodFile` changes exactly the mode of the file at the path. -/
theorem lookupFile_chmodFile (fs : List (String × GoFile)) (p : String)
    (m : Nat) : lookupFile (chmodFile fs p m) p =
      (lookupFile fs p).map fun g => ⟨g.content, m⟩ := by
  induction fs with
  | nil => simp [chmodFile, lookupFile]
  | cons e rest ih =>
    obtain ⟨q, h0⟩ := e
    by_cases hq : q = p
    · simp [chmodFile, lookupFile, hq]
    · simp [chmodFile, lookupFile, hq, ih]

/-- `writeFile` appends exactly to the content of the file at the path. -/
theorem lookupFile_writeFile (fs : List (String × GoFile)) (p : String)
    (s : String) : lookupFile (writeFile fs p s) p =
      (lookupFile fs p).map fun g => ⟨g.content ++ s, g.mode⟩ := by
  induction fs with
  | nil => simp [writeFile, lookupFile]
  | cons e rest ih =>
    obtain ⟨q, h0⟩ := e
    by_cases hq : q = p
    · simp [writeFile, lookupFile, hq]
    · simp [writeFile, lookupFile, hq, ih]

/-! The claims. -/

/-- C1 (counterexample): in the spec's scenario — content "key: value",
targetDir "/tmp/out", targetName "config.yaml", permissions "0644", clean
fault-free filesystem — the copy succeeds and the destination file exists
with the right content, but its mode is 132 (octal 0204), not octal 0644
(420): `strconv.Atoi` parses "0644" as the decimal integer 644, and
`Chmod(os.FileMode(644))` applies permission bits 644 & 0o777 = 132. -/
theorem CopyFileLocal_scenario_not_mode_0644 :
    (CopyFileLocal demoAsset cleanWorld).1 = none ∧
    (lookupFile (CopyFileLocal demoAsset cleanWorld).2.1.files
        "/tmp/out/config.yaml").map GoFile.mode = some 132 ∧
    (lookupFile (CopyFileLocal demoAsset cleanWorld).2.1.files
        "/tmp/out/config.yaml").map GoFile.mode ≠ some 0o644 := by
  decide

/-- C1 (amended): in the spec's scenario, after a successful copy the file
`/tmp/out/config.yaml` exists, contains exactly "key: value", and has the
mode obtained by parsing "0644" as a decimal integer (644) and applying it
as `os.FileMode(644)` — permission bits 132 (octal 0204) — rather than
octal 0644. -/
theorem CopyFileLocal_scenario_content_and_mode :
    (CopyFileLocal demoAsset cleanWorld).1 = none ∧
    lookupFile (CopyFileLocal demoAsset cleanWorld).2.1.files
        "/tmp/out/config.yaml" =
      some ⟨"key: value", goSyscallMode (fileModeOfInt (goAtoi "0644").1)⟩ ∧
    goSyscallMode (fileModeOfInt (goAtoi "0644").1) = 132 := by
  decide

/-- C7: the memory-backed asset's `GetLength` returns the stored `Length`
field verbatim (for every asset, including those whose field disagrees with
the buffer's size), and the four metadata getters return the stored fields
verbatim; all are pure functions of the record. -/
theorem MemoryAsset_GetLength_and_getters_verbatim :
    ∀ (m : MemoryAsset) (b : BaseAsset),
      MemoryAsset.GetLength m = m.base.Length ∧
      BaseAsset.GetAssetName b = b.AssetName ∧
      BaseAsset.GetTargetDir b = b.TargetDir ∧
      BaseAsset.GetTargetName b = b.TargetName ∧
      BaseAsset.GetPermissions b = b.Permissions :=
  fun _ _ => ⟨rfl, rfl, rfl, rfl, rfl⟩

/-- C8: reading a memory-backed asset whose reader was never populated
dereferences the nil reader and panics (modelled as `none`), whereas the
disk-backed variant's `Read` guards the same situation and returns its
"reader uninitialized" error instead. -/
theorem MemoryAsset_Read_nil_reader_panics :
    ∀ (m : MemoryAsset) (fa : FileAsset) (n : Nat),
      (m.base.reader = none → MemoryAsset.Read m n = none) ∧
      (fa.base.reader = none →
        FileAsset.Read fa n = .error .readerUninitialized) := by
  intro m fa n
  constructor
  · intro h; simp [MemoryAsset.Read, h]
  · intro h; simp [FileAsset.Read, h]

/-- A base record whose reader field was never populated. -/
def nilReaderBase : BaseAsset :=
  { data := "buf", reader := none, Length := 3, AssetName := "a",
    TargetDir := "/tmp/out", TargetName := "t", Permissions := "0644" }

/-- Witness for C8 at a concrete unpopulated asset and buffer size 4. -/
theorem MemoryAsset_Read_nil_reader_panics_witness :
    MemoryAsset.Read ⟨nilReaderBase⟩ 4 = none ∧
    FileAsset.Read ⟨nilReaderBase⟩ 4 = .error .readerUninitialized :=
  ⟨(MemoryAsset_Read_nil_reader_panics ⟨nilReaderBase⟩ ⟨nilReaderBase⟩ 4).1 rfl,
   (MemoryAsset_Read_nil_reader_panics ⟨nilReaderBase⟩ ⟨nilReaderBase⟩ 4).2 rfl⟩

/-- C10: `FileAsset.GetLength` is a pure query of the world: it hands back
the asset and the world unchanged (the fresh handle it opens is closed
again, and the construction-time reader is never touched), so a `Read` after
`GetLength` yields exactly what a `Read` without it would. -/
theorem FileAsset_GetLength_frame :
    ∀ (f : FileAsset) (w : World) (n : Nat),
      (FileAsset.GetLength f w).2.1 = f ∧
      (FileAsset.GetLength f w).2.2 = w ∧
      FileAsset.Read (FileAsset.GetLength f w).2.1 n = FileAsset.Read f n := by
  intro f w n
  rcases hopen : osOpen f.base.AssetName w with _ | r
  · simp [FileAsset.GetLength, hopen]
  · by_cases hf : w.fstatFail f.base.AssetName
    · simp [FileAsset.GetLength, hopen, hf]
    · simp [FileAsset.GetLength, hopen, hf]

/-- C4: constructing a disk-backed asset on a path that cannot be opened
fails at construction time with the open error wrapped with the asset's
name; on success the returned asset's reader handle is set, so `Read` on it
never takes the "reader uninitialized" branch. -/
theorem NewFileAsset_open_at_construction :
    (∀ (an td tn p : String) (w : World),
      osOpen an w = none →
      NewFileAsset an td tn p w = .error (.openingFileAsset an)) ∧
    (∀ (an td tn p : String) (w : World) (a : FileAsset),
      NewFileAsset an td tn p w = .ok a →
      a.base.reader ≠ none ∧
      ∀ n, FileAsset.Read a n ≠ .error .readerUninitialized) := by
  constructor
  · intro an td tn p w h
    simp [NewFileAsset, h]
  · intro an td tn p w a h
    rcases hopen : osOpen an w with _ | r
    · simp [NewFileAsset, hopen] at h
    · simp only [NewFileAsset, hopen] at h
      injection h with h2
      subst h2
      exact ⟨by simp, fun n => by simp [FileAsset.Read]⟩

/-- A fault-free world holding one source file `srcfile` of content
`hello`. -/
def srcWorld : World :=
  { cleanWorld with files := [("srcfile", ⟨"hello", 420⟩)] }

/-- The asset `NewFileAsset "srcfile" ... srcWorld` returns. -/
def srcAsset : FileAsset :=
  ⟨{ data := "", reader := some ⟨"hello"⟩, Length := 0,
     AssetName := "srcfile", TargetDir := "/tmp/out", TargetName := "t",
     Permissions := "0644" }⟩

/-- A disk asset naming a path absent from `srcWorld`, with no reader. -/
def missingAsset : FileAsset :=
  ⟨{ data := "", reader := none, Length := 0, AssetName := "missing",
     TargetDir := "/tmp/out", TargetName := "t", Permissions := "0644" }⟩

/-- Witness for C4: construction on the missing path fails with the wrapped
error; construction on `srcfile` succeeds and its `Read` with a 3-byte
buffer does not return the uninitialized-reader error. -/
theorem NewFileAsset_open_at_construction_witness :
    NewFileAsset "missing" "/tmp/out" "t" "0644" srcWorld =
      .error (.openingFileAsset "missing") ∧
    FileAsset.Read srcAsset 3 ≠ .error .readerUninitialized :=
  ⟨NewFileAsset_open_at_construction.1 "missing" "/tmp/out" "t" "0644"
      srcWorld (by decide),
   ((NewFileAsset_open_at_construction.2 "srcfile" "/tmp/out" "t" "0644"
      srcWorld srcAsset rfl).2) 3⟩

/-- C5: `FileAsset.GetLength` re-opens the asset's path and stats it: it
returns 0 (and no error — the return type is a bare integer) when the
re-open or the stat fails, and the file's size in bytes when both
succeed. -/
theorem FileAsset_GetLength_reopen_stat :
    ∀ (f : FileAsset) (w : World),
      (osOpen f.base.AssetName w = none → (FileAsset.GetLength f w).1 = 0) ∧
      (w.fstatFail f.base.AssetName = true → (FileAsset.GetLength f w).1 = 0) ∧
      (∀ g : GoFile, w.openFail f.base.AssetName = false →
        w.fstatFail f.base.AssetName = false →
        lookupFile w.files f.base.AssetName = some g →
        (FileAsset.GetLength f w).1 = (g.content.length : Int)) := by
  intro f w
  refine ⟨fun h => by simp [FileAsset.GetLength, h], fun h => ?_, ?_⟩
  · rcases hopen : osOpen f.base.AssetName w with _ | r
    · simp [FileAsset.GetLength, hopen]
    · simp [FileAsset.GetLength, hopen, h]
  · intro g hof hfs hlk
    have hopen : osOpen f.base.AssetName w = some ⟨g.content⟩ := by
      simp [osOpen, hof, hlk]
    simp [FileAsset.GetLength, hopen, hfs]

/-- Witness for C5: on `srcWorld`, the length of the missing-path asset is
reported as 0, and the length of the `srcfile` asset is 5. -/
theorem FileAsset_GetLength_reopen_stat_witness :
    (FileAsset.GetLength missingAsset srcWorld).1 = 0 ∧
    (FileAsset.GetLength srcAsset srcWorld).1 = 5 :=
  ⟨(FileAsset_GetLength_reopen_stat missingAsset srcWorld).1 (by decide),
   (FileAsset_GetLength_reopen_stat srcAsset srcWorld).2.2 ⟨"hello", 420⟩
     rfl rfl (by decide)⟩

/-- A syntax failure of `atoiDigits` carries the value 0. -/
theorem atoiDigits_invalid_val (neg : Bool) (ds : List Char)
    (h : (atoiDigits neg ds).2 = some NumErr.invalid) :
    (atoiDigits neg ds).1 = 0 := by
  simp only [atoiDigits] at h ⊢
  split_ifs at h ⊢ <;> simp_all

/-- A syntax failure of `goAtoi` carries the value 0 (range failures carry
the clamped extreme instead). -/
theorem goAtoi_invalid_val (s : String)
    (h : (goAtoi s).2 = some NumErr.invalid) : (goAtoi s).1 = 0 :=
  atoiDigits_invalid_val _ _ h

/-- Run of `CopyFileLocal` when the permission string fails to parse and the
mkdir/remove/create steps do not fault: the run stops at the
permission-conversion error, the destination exists with empty content, and
the effect trace is exactly mkdir(-remove)-create. -/
theorem copyFileLocal_badPerms_run (f : CopyableFile) (w : World) (v : Int)
    (e : NumErr) (hga : goAtoi f.permissions = (v, some e))
    (hmk : w.mkdirFail f.targetDir = false)
    (hrm : w.removeFail (filepathJoin f.targetDir f.targetName) = false)
    (hcr : w.createFail (filepathJoin f.targetDir f.targetName) = false) :
    (CopyFileLocal f w).1 = some (.convertingPermissions (goFmtS v)) ∧
    (lookupFile (CopyFileLocal f w).2.1.files
        (filepathJoin f.targetDir f.targetName)).map GoFile.content = some "" ∧
    ((CopyFileLocal f w).2.2 =
        [FSEffect.mkdirAll f.targetDir,
         FSEffect.remove (filepathJoin f.targetDir f.targetName),
         FSEffect.create (filepathJoin f.targetDir f.targetName)] ∨
     (CopyFileLocal f w).2.2 =
        [FSEffect.mkdirAll f.targetDir,
         FSEffect.create (filepathJoin f.targetDir f.targetName)]) := by
  have hred : CopyFileLocal f w =
      copyFromStat f (filepathJoin f.targetDir f.targetName)
        { w with dirs := f.targetDir :: w.dirs } [FSEffect.mkdirAll f.targetDir] := by
    simp [CopyFileLocal, osMkdirAll, hmk]
  rw [hred]
  by_cases hstat : osStatOk (filepathJoin f.targetDir f.targetName)
      { w with dirs := f.targetDir :: w.dirs } = true
  · simp [copyFromStat, hstat, osRemove, hrm, copyFromCreate, osCreate, hcr,
      hga, lookupFile_updateFile]
  · simp [copyFromStat, hstat, copyFromCreate, osCreate, hcr, hga,
      lookupFile_updateFile]

/-- C2: when the permission string does not parse as an integer (and the
environment does not fault the earlier steps), the copy fails after the
destination file has been created but before any mode change or byte copy:
the destination exists as an empty file, the trace holds no chmod and no
write. -/
theorem CopyFileLocal_badPerms_empty_dest :
    ∀ (f : CopyableFile) (w : World),
      (goAtoi f.permissions).2.isSome = true →
      w.mkdirFail f.targetDir = false →
      w.removeFail (filepathJoin f.targetDir f.targetName) = false →
      w.createFail (filepathJoin f.targetDir f.targetName) = false →
      (CopyFileLocal f w).1 =
        some (.convertingPermissions (goFmtS (goAtoi f.permissions).1)) ∧
      (lookupFile (CopyFileLocal f w).2.1.files
          (filepathJoin f.targetDir f.targetName)).map GoFile.content = some "" ∧
      FSEffect.create (filepathJoin f.targetDir f.targetName) ∈
        (CopyFileLocal f w).2.2 ∧
      (∀ p m, FSEffect.chmod p m ∉ (CopyFileLocal f w).2.2) ∧
      (∀ p s, FSEffect.write p s ∉ (CopyFileLocal f w).2.2) := by
  intro f w hbad hmk hrm hcr
  rcases hga0 : goAtoi f.permissions with ⟨v, oe⟩
  rw [hga0] at hbad
  obtain ⟨e, he⟩ := Option.isSome_iff_exists.mp hbad
  subst he
  obtain ⟨h1, h2, h3⟩ := copyFileLocal_badPerms_run f w v e hga0 hmk hrm hcr
  refine ⟨by simp [h1, hga0], h2, ?_, ?_, ?_⟩
  · rcases h3 with h3 | h3 <;> simp [h3]
  · intro p m; rcases h3 with h3 | h3 <;> simp [h3]
  · intro p s; rcases h3 with h3 | h3 <;> simp [h3]

/-- An asset whose permission string "abc" has no integer parse. -/
def badPermAsset : CopyableFile :=
  { stream := "hello", length := 5, assetName := "a", targetDir := "/tmp/out",
    targetName := "f.txt", permissions := "abc" }

/-- Witness for C2 on the "abc"-permission asset over a clean world. -/
theorem CopyFileLocal_badPerms_empty_dest_witness :
    (CopyFileLocal badPermAsset cleanWorld).1 =
      some (.convertingPermissions (goFmtS (goAtoi "abc").1)) ∧
    (lookupFile (CopyFileLocal badPermAsset cleanWorld).2.1.files
        "/tmp/out/f.txt").map GoFile.content = some "" ∧
    FSEffect.create "/tmp/out/f.txt" ∈ (CopyFileLocal badPermAsset cleanWorld).2.2 ∧
    FSEffect.chmod "/tmp/out/f.txt" 132 ∉ (CopyFileLocal badPermAsset cleanWorld).2.2 :=
  have h := CopyFileLocal_badPerms_empty_dest badPermAsset cleanWorld
    (by decide) rfl rfl rfl
  ⟨h.1, h.2.1, h.2.2.1, h.2.2.2.1 "/tmp/out/f.txt" 132⟩

/-- C3: copying over an existing destination file removes it first and
recreates it, so the resulting content is exactly the asset's byte stream —
nothing of the old content survives. The trace shows the removal strictly
before the creation. -/
theorem CopyFileLocal_overwrites_entirely :
    ∀ (f : CopyableFile) (w : World) (g : GoFile),
      lookupFile w.files (filepathJoin f.targetDir f.targetName) = some g →
      (goAtoi f.permissions).2 = none →
      w.mkdirFail f.targetDir = false →
      w.statFail (filepathJoin f.targetDir f.targetName) = false →
      w.removeFail (filepathJoin f.targetDir f.targetName) = false →
      w.createFail (filepathJoin f.targetDir f.targetName) = false →
      w.chmodFail (filepathJoin f.targetDir f.targetName) = false →
      w.copyFail = false →
      w.closeFail = false →
      (CopyFileLocal f w).1 = none ∧
      (CopyFileLocal f w).2.2 =
        [FSEffect.mkdirAll f.targetDir,
         FSEffect.remove (filepathJoin f.targetDir f.targetName),
         FSEffect.create (filepathJoin f.targetDir f.targetName),
         FSEffect.chmod (filepathJoin f.targetDir f.targetName)
           (goSyscallMode (fileModeOfInt (goAtoi f.permissions).1)),
         FSEffect.write (filepathJoin f.targetDir f.targetName) f.stream,
         FSEffect.close (filepathJoin f.targetDir f.targetName)] ∧
      lookupFile (CopyFileLocal f w).2.1.files
          (filepathJoin f.targetDir f.targetName) =
        some ⟨f.stream, goSyscallMode (fileModeOfInt (goAtoi f.permissions).1)⟩ := by
  intro f w g hlk hok hmk hst hrm hcr hch hcp hcl
  rcases hga : goAtoi f.permissions with ⟨v, oe⟩
  rw [hga] at hok
  simp only at hok
  subst hok
  simp [CopyFileLocal, osMkdirAll, hmk, copyFromStat, osStatOk, hlk, hst, osRemove, hrm,
    copyFromCreate, osCreate, hcr, lookupFile_eraseFile, hga, hch, hcp, hcl,
    lookupFile_writeFile, lookupFile_chmodFile, lookupFile_updateFile,
    String.empty_append]

/-- A fault-free world with a stale file already at the scenario's
destination path. -/
def oldFileWorld : World :=
  { cleanWorld with files := [("/tmp/out/config.yaml", ⟨"OLD CONTENT", 420⟩)] }

/-- Witness for C3: copying the scenario asset over a stale destination
succeeds and leaves exactly the asset's bytes there. -/
theorem CopyFileLocal_overwrites_entirely_witness :
    (CopyFileLocal demoAsset oldFileWorld).1 = none ∧
    lookupFile (CopyFileLocal demoAsset oldFileWorld).2.1.files
        "/tmp/out/config.yaml" = some ⟨"key: value", 132⟩ :=
  have h := CopyFileLocal_overwrites_entirely demoAsset oldFileWorld
    ⟨"OLD CONTENT", 420⟩ (by decide) (by decide) rfl rfl rfl rfl rfl rfl rfl
  ⟨h.1, h.2.2⟩

/-- Whatever happens after `os.Create` is attempted, the effects added from
that point on never include a removal; when creation succeeds a create
effect is recorded, and when it fails the run stops with the
file-creation error. -/
theorem copyFromCreate_trace_shape (f : CopyableFile) (tp : String) (w : World)
    (tr : List FSEffect) :
    ∃ ext : List FSEffect,
      (copyFromCreate f tp w tr).2.2 = tr ++ ext ∧
      (∀ p, FSEffect.remove p ∉ ext) ∧
      (w.createFail tp = false → FSEffect.create tp ∈ ext) ∧
      (w.createFail tp = true →
        (copyFromCreate f tp w tr).1 = some (.creatingFile tp)) := by
  by_cases hcr : w.createFail tp = true
  · exact ⟨[], by simp [copyFromCreate, osCreate, hcr], by simp,
      by simp [hcr], fun _ => by simp [copyFromCreate, osCreate, hcr]⟩
  · rcases hga : goAtoi f.permissions with ⟨v, oe⟩
    rcases oe with _ | e
    · by_cases hch : w.chmodFail tp = true
      · exact ⟨[FSEffect.create tp],
          by simp [copyFromCreate, osCreate, hcr, hga, hch],
          by simp, by simp, by simp [hcr]⟩
      · by_cases hcp : w.copyFail = true
        · exact ⟨[FSEffect.create tp,
              FSEffect.chmod tp (goSyscallMode (fileModeOfInt v))],
            by simp [copyFromCreate, osCreate, hcr, hga, hch, hcp],
            by simp, by simp, by simp [hcr]⟩
        · exact ⟨[FSEffect.create tp,
              FSEffect.chmod tp (goSyscallMode (fileModeOfInt v)),
              FSEffect.write tp f.stream, FSEffect.close tp],
            by by_cases hcl : w.closeFail = true <;>
              simp [copyFromCreate, osCreate, hcr, hga, hch, hcp, hcl],
            by simp, by simp, by simp [hcr]⟩
    · exact ⟨[FSEffect.create tp],
        by simp [copyFromCreate, osCreate, hcr, hga],
        by simp, by simp, by simp [hcr]⟩

/-- C9: the pre-removal of an existing destination happens only when the
stat succeeds. Whenever the stat fails — including for reasons other than
non-existence, such as permission denial on an existing file — no removal is
ever performed and the operation proceeds directly to creating the
destination file. -/
theorem CopyFileLocal_statFailed_skips_remove :
    ∀ (f : CopyableFile) (w : World),
      w.mkdirFail f.targetDir = false →
      osStatOk (filepathJoin f.targetDir f.targetName) w = false →
      (∀ p, FSEffect.remove p ∉ (CopyFileLocal f w).2.2) ∧
      (w.createFail (filepathJoin f.targetDir f.targetName) = false →
        FSEffect.create (filepathJoin f.targetDir f.targetName) ∈
          (CopyFileLocal f w).2.2) ∧
      (w.createFail (filepathJoin f.targetDir f.targetName) = true →
        (CopyFileLocal f w).1 =
          some (.creatingFile (filepathJoin f.targetDir f.targetName))) := by
  intro f w hmk hstat
  have hstat2 : osStatOk (filepathJoin f.targetDir f.targetName)
      { w with dirs := f.targetDir :: w.dirs } = false := hstat
  have hred : CopyFileLocal f w =
      copyFromCreate f (filepathJoin f.targetDir f.targetName)
        { w with dirs := f.targetDir :: w.dirs } [FSEffect.mkdirAll f.targetDir] := by
    simp [CopyFileLocal, osMkdirAll, hmk, copyFromStat, hstat2]
  rw [hred]
  obtain ⟨ext, htr, hnorem, hcrea, hfail⟩ :=
    copyFromCreate_trace_shape f (filepathJoin f.targetDir f.targetName)
      { w with dirs := f.targetDir :: w.dirs } [FSEffect.mkdirAll f.targetDir]
  refine ⟨fun p => ?_, fun h => ?_, fun h => hfail h⟩
  · rw [htr]
    simp [hnorem p]
  · rw [htr]
    exact List.mem_append_right _ (hcrea h)

/-- A world where the destination file exists but stat on it is denied. -/
def statFailWorld : World :=
  { cleanWorld with
    files := [("/tmp/out/config.yaml", ⟨"OLD", 420⟩)],
    statFail := fun p => p == "/tmp/out/config.yaml" }

/-- Witness for C9: with the destination present but its stat denied, the
copy performs no removal and still records the creation. -/
theorem CopyFileLocal_statFailed_skips_remove_witness :
    FSEffect.remove "/tmp/out/config.yaml" ∉
      (CopyFileLocal demoAsset statFailWorld).2.2 ∧
    FSEffect.create "/tmp/out/config.yaml" ∈
      (CopyFileLocal demoAsset statFailWorld).2.2 :=
  have h := CopyFileLocal_statFailed_skips_remove demoAsset statFailWorld
    rfl (by decide)
  ⟨h.1 "/tmp/out/config.yaml", h.2.1 rfl⟩

/-- An asset whose permission string overflows a 64-bit integer. -/
def hugePermAsset : CopyableFile :=
  { stream := "hello", length := 5, assetName := "a", targetDir := "/tmp/out",
    targetName := "f.txt", permissions := "99999999999999999999" }

/-- C6 (counterexample): for the permission string
"99999999999999999999" the parse fails with a range error, and the error
message embeds the clamped parse result 9223372036854775807 — not zero — so
the claim's "zero-valued on failure" does not hold for every parse
failure. -/
theorem CopyFileLocal_rangePerms_embeds_clamped :
    (goAtoi "99999999999999999999").2.isSome = true ∧
    (CopyFileLocal hugePermAsset cleanWorld).1 =
      some (.convertingPermissions "%!s(int=9223372036854775807)") ∧
    "%!s(int=9223372036854775807)" ≠ goFmtS 0 := by
  decide

/-- C6 (amended): when the permission string fails to parse, the wrapping
error message interpolates the already-parsed integer result under a `%s`
verb — `%!s(int=<value>)` — rather than the original permission string; the
value is 0 for syntax failures (range failures carry the clamped
extreme). -/
theorem CopyFileLocal_parse_error_message :
    ∀ (f : CopyableFile) (w : World),
      (goAtoi f.permissions).2.isSome = true →
      w.mkdirFail f.targetDir = false →
      w.removeFail (filepathJoin f.targetDir f.targetName) = false →
      w.createFail (filepathJoin f.targetDir f.targetName) = false →
      (CopyFileLocal f w).1 =
        some (.convertingPermissions (goFmtS (goAtoi f.permissions).1)) ∧
      (CopyFileLocal f w).1.map CopyErr.contextMessage =
        some ("error converting permissions " ++ goFmtS (goAtoi f.permissions).1
          ++ " to integer") ∧
      ((goAtoi f.permissions).2 = some NumErr.invalid →
        goFmtS (goAtoi f.permissions).1 = "%!s(int=0)") := by
  intro f w hbad hmk hrm hcr
  have hzero : (goAtoi f.permissions).2 = some NumErr.invalid →
      goFmtS (goAtoi f.permissions).1 = "%!s(int=0)" := by
    intro hinv
    rw [goAtoi_invalid_val f.permissions hinv]
    decide
  rcases hga0 : goAtoi f.permissions with ⟨v, oe⟩
  rw [hga0] at hbad
  obtain ⟨e, he⟩ := Option.isSome_iff_exists.mp hbad
  subst he
  obtain ⟨h1, -, -⟩ := copyFileLocal_badPerms_run f w v e hga0 hmk hrm hcr
  exact ⟨by simp [h1, hga0], by simp [h1, hga0, CopyErr.contextMessage],
    by rw [hga0] at hzero; exact hzero⟩

/-- Witness for C6 on the "abc"-permission asset: the message embeds
`%!s(int=0)` and not the string "abc". -/
theorem CopyFileLocal_parse_error_message_witness :
    (CopyFileLocal badPermAsset cleanWorld).1.map CopyErr.contextMessage =
      some ("error converting permissions " ++ goFmtS (goAtoi "abc").1
        ++ " to integer") ∧
    goFmtS (goAtoi "abc").1 = "%!s(int=0)" :=
  have h := CopyFileLocal_parse_error_message badPermAsset cleanWorld
    (by decide) rfl rfl rfl
  ⟨h.2.1, h.2.2 (by decide)⟩

end VMAssets
